import Mathlib

/-!
A shallow embedding of the `shorty` URL-shortener decision core
(`src/shorty/src/lib.rs`) and of the slice of its key-value store facade
(`src/shorty/src/redis_facade.rs`) that the core uses.

The store is modelled as an explicit interface `Store σ`: each operation
takes the current store state, returns a result-or-error and the successor
state.  Every core operation additionally returns the list of store
round-trips it issued, in call order, so that call-sequence properties
(key shapes, call ordering, call counts) can be stated directly.

The random identifier draw (`nanoid::custom`) is modelled by a stream
`ids : Nat -> String` giving the identifier produced by each successive
draw, and URL parsing (the external `url` crate's `Url::parse`) is
modelled by a parameter `p : String -> Option ParsedUrl` exposing the
only accessor the core uses, `host_str`.  Rust's `str::to_lowercase` and
`str::starts_with` are modelled character-wise on the string's data.

A Rust `panic!` (reached via `.unwrap()` on an `Err`/`None` value) is a
distinguished outcome `panicked`, separate from returning an error value.
-/

namespace Shorty

/-- One store round-trip issued by the core, with its arguments.  The
constructors mirror the `RedisFacade` method surface. -/
inductive StoreCall where
  | get_string (key : String)
  | get_bool (key : String)
  | exists_key (key : String)
  | increment (key : String)
  | expire (key : String) (seconds : Nat)
  | set (key : String) (value : String)
  deriving DecidableEq, Repr

/-- Interface of the key-value store facade: each operation consumes a
store state and yields a result (or a store error, `Except.error ()`)
together with the successor state. -/
structure Store (σ : Type) where
  get_string : σ → String → Except Unit String × σ
  get_bool : σ → String → Except Unit Bool × σ
  exists_key : σ → String → Except Unit Bool × σ
  increment : σ → String → Except Unit Int × σ
  expire : σ → String → Nat → Except Unit Unit × σ
  set : σ → String → String → Except Unit Unit × σ

/-- The error taxonomy of the core, one constructor per distinct
`ShortenerError` message produced in `lib.rs`. -/
inductive ErrKind where
  | invalidApiKey
  | rateLimitExceeded
  | idGenerationExhausted
  | invalidUrl
  | linkLoop
  | storageError
  deriving DecidableEq, Repr

/-- The literal `ShortenerError` message carried by each error kind in the
source. -/
def ErrKind.message : ErrKind → String
  | .invalidApiKey => "Invalid API key"
  | .rateLimitExceeded => "Rate limit exceeded"
  | .idGenerationExhausted =>
      "Failed to generate an ID: too many attempts. Consider using a longer ID"
  | .invalidUrl => "Unable to parse url"
  | .linkLoop => "Link loop is not allowed"
  | .storageError => "Redis error"

/-- Result of the `verify_and_increment` closure inside
`Shortener::verify_api_key`: a post-increment counter value, a redis
error (to be wrapped as `Invalid API key`), or a panic (the `.unwrap()`
on the `expire` result). -/
inductive RVal where
  | ok (n : Int)
  | rerr
  | panicked
  deriving DecidableEq, Repr

/-- Result of `Shortener::verify_api_key`. -/
inductive VerifyOutcome where
  | ok
  | err (e : ErrKind)
  | panicked
  deriving DecidableEq, Repr

/-- Result of `Shortener::generate_id`. -/
inductive GenResult where
  | ok (id : String)
  | exhausted
  deriving DecidableEq, Repr

/-- Result of `Shortener::shorten`: a `ShortenerResult { id, url }`, a
`ShortenerError` of some kind, or a panic. -/
inductive ShortenOutcome where
  | ok (id : String) (url : String)
  | err (e : ErrKind)
  | panicked
  deriving DecidableEq, Repr

/-- The slice of the `url` crate's parsed `Url` value that the core
reads: the optional host component returned by `host_str()`. -/
structure ParsedUrl where
  host_str : Option String
  deriving DecidableEq, Repr

/-- Configuration of the `Shortener` struct (its `redis` field is the
store, passed separately as a `Store` interface plus a state). -/
structure Shortener where
  id_length : Nat
  id_alphabet : List Char
  id_generation_max_attempts : Nat
  rate_limit_period : Nat
  rate_limit : Int
  deriving DecidableEq, Repr

/-- `Shortener::lookup`: one `get_string` round-trip; a hit yields
`some url`, any store failure yields `none`. -/
def lookup {σ : Type} (S : Store σ) (s : σ) (id : String) :
    Option String × σ × List StoreCall :=
  match S.get_string s id with
  | (.ok url, s1) => (some url, s1, [.get_string id])
  | (.error _, s1) => (none, s1, [.get_string id])

/-- The `verify_and_increment` closure of `Shortener::verify_api_key`,
already applied to the full api-key store key `API_KEY_<apiKey>`.
Mirrors the source: read the boolean flag; a false flag becomes a redis
error; with rate limiting disabled return `-1`; otherwise check existence
of the rate key, increment it, and if the key did not exist beforehand
call `expire` and `.unwrap()` its result (an `expire` store error
therefore panics). -/
def Shortener.verify_and_increment {σ : Type} (cfg : Shortener) (S : Store σ)
    (s : σ) (api_key : String) : RVal × σ × List StoreCall :=
  match S.get_bool s api_key with
  | (.error _, s1) => (.rerr, s1, [.get_bool api_key])
  | (.ok valid, s1) =>
    if !valid then (.rerr, s1, [.get_bool api_key])
    else if cfg.rate_limit ≤ 0 then (.ok (-1), s1, [.get_bool api_key])
    else
      let rate_key := "RATE_" ++ api_key
      match S.exists_key s1 rate_key with
      | (.error _, s2) => (.rerr, s2, [.get_bool api_key, .exists_key rate_key])
      | (.ok ex, s2) =>
        match S.increment s2 rate_key with
        | (.error _, s3) =>
          (.rerr, s3, [.get_bool api_key, .exists_key rate_key, .increment rate_key])
        | (.ok n, s3) =>
          if !ex then
            match S.expire s3 rate_key cfg.rate_limit_period with
            | (.error _, s4) =>
              (.panicked, s4,
                [.get_bool api_key, .exists_key rate_key, .increment rate_key,
                 .expire rate_key cfg.rate_limit_period])
            | (.ok _, s4) =>
              (.ok n, s4,
                [.get_bool api_key, .exists_key rate_key, .increment rate_key,
                 .expire rate_key cfg.rate_limit_period])
          else
            (.ok n, s3,
              [.get_bool api_key, .exists_key rate_key, .increment rate_key])

/-- `Shortener::verify_api_key`: run `verify_and_increment` on
`API_KEY_<apiKey>` and post-process: a counter above a positive
threshold is `Rate limit exceeded`, any redis error is wrapped as
`Invalid API key`. -/
def Shortener.verify_api_key {σ : Type} (cfg : Shortener) (S : Store σ)
    (s : σ) (api_key : String) : VerifyOutcome × σ × List StoreCall :=
  match cfg.verify_and_increment S s ("API_KEY_" ++ api_key) with
  | (.ok call_rate, s1, t) =>
    if cfg.rate_limit > 0 ∧ call_rate > cfg.rate_limit then
      (.err .rateLimitExceeded, s1, t)
    else (.ok, s1, t)
  | (.rerr, s1, t) => (.err .invalidApiKey, s1, t)
  | (.panicked, s1, t) => (.panicked, s1, t)

/-- The `for _ in 1..=max_attempts` loop of `Shortener::generate_id`:
`i` is the index of the next draw from the id stream, `r` the number of
attempts left.  A store error on the existence check is treated as
"does not exist" (`unwrap_or(false)`). -/
def generate_id_loop {σ : Type} (S : Store σ) (ids : Nat → String) :
    Nat → Nat → σ → GenResult × σ × List StoreCall
  | _, 0, s => (.exhausted, s, [])
  | i, r + 1, s =>
    let id := ids i
    match S.exists_key s id with
    | (res, s1) =>
      let ex := match res with
        | .ok b => b
        | .error _ => false
      if !ex then (.ok id, s1, [.exists_key id])
      else
        match generate_id_loop S ids (i + 1) r s1 with
        | (g, s2, t) => (g, s2, .exists_key id :: t)

/-- `Shortener::generate_id`: up to `id_generation_max_attempts` draws,
the first candidate whose existence check is negative wins; exhausting
all attempts is the `IdGenerationExhausted` failure. -/
def Shortener.generate_id {σ : Type} (cfg : Shortener) (S : Store σ)
    (ids : Nat → String) (s : σ) : GenResult × σ × List StoreCall :=
  generate_id_loop S ids 0 cfg.id_generation_max_attempts s

/-- Character-wise model of Rust's `str::to_lowercase` as used on URLs. -/
def toLowercase (s : String) : String :=
  ⟨s.data.map Char.toLower⟩

/-- Model of Rust's `str::starts_with`: the pattern's characters are a
prefix of the receiver's characters. -/
def starts_with (s pat : String) : Bool :=
  pat.data.isPrefixOf s.data

/-- The URL normalization step inlined in `Shortener::shorten`: prepend
`http://` when the lowercased URL does not start with `http`. -/
def normalize_url (url : String) : String :=
  if !(starts_with (toLowercase url) "http") then "http://" ++ url else url

/-- The tail of `Shortener::shorten` after API-key verification: generate
an id, normalize and parse the URL, run the loop-prevention check (which
calls `host_str().unwrap()`, panicking when the parsed URL has no host),
and persist `id -> normalized url`. -/
def Shortener.shorten_after_verify {σ : Type} (cfg : Shortener) (S : Store σ)
    (p : String → Option ParsedUrl) (ids : Nat → String)
    (host : Option String) (url : String) (s : σ) :
    ShortenOutcome × σ × List StoreCall :=
  match cfg.generate_id S ids s with
  | (.exhausted, s2, t2) => (.err .idGenerationExhausted, s2, t2)
  | (.ok id, s2, t2) =>
    let nurl := normalize_url url
    match p nurl with
    | none => (.err .invalidUrl, s2, t2)
    | some parsed =>
      match host with
      | none =>
        match S.set s2 id nurl with
        | (.error _, s3) => (.err .storageError, s3, t2 ++ [.set id nurl])
        | (.ok _, s3) => (.ok id nurl, s3, t2 ++ [.set id nurl])
      | some h =>
        match parsed.host_str with
        | none => (.panicked, s2, t2)
        | some uh =>
          if uh = h then (.err .linkLoop, s2, t2)
          else
            match S.set s2 id nurl with
            | (.error _, s3) => (.err .storageError, s3, t2 ++ [.set id nurl])
            | (.ok _, s3) => (.ok id nurl, s3, t2 ++ [.set id nurl])

/-- `Shortener::shorten`: verify the API key when one is supplied
(skipped otherwise), then run the generation / normalization / parsing /
loop-check / persistence pipeline, short-circuiting on the first
failure. -/
def Shortener.shorten {σ : Type} (cfg : Shortener) (S : Store σ)
    (p : String → Option ParsedUrl) (ids : Nat → String) (s : σ)
    (api_key : Option String) (host : Option String) (url : String) :
    ShortenOutcome × σ × List StoreCall :=
  match api_key with
  | none => cfg.shorten_after_verify S p ids host url s
  | some k =>
    match cfg.verify_api_key S s k with
    | (.panicked, s1, t1) => (.panicked, s1, t1)
    | (.err e, s1, t1) => (.err e, s1, t1)
    | (.ok, s1, t1) =>
      match cfg.shorten_after_verify S p ids host url s1 with
      | (o, s2, t2) => (o, s2, t1 ++ t2)

deriving instance DecidableEq for Except

/-- Scripted store double mirroring the `StubRedisFacade` of the source's
test module: one pre-queued answer list per store method, consumed in
call order.  An exhausted queue answers with a store error. -/
structure StubState where
  get_string_answers : List (Except Unit String)
  get_bool_answers : List (Except Unit Bool)
  exists_answers : List (Except Unit Bool)
  set_answers : List (Except Unit Unit)
  incr_answers : List (Except Unit Int)
  expire_answers : List (Except Unit Unit)
  deriving DecidableEq, Repr

/-- The `Store` instance over `StubState`: every call pops the head of
the matching queue. -/
def stubStore : Store StubState where
  get_string s _ :=
    match s.get_string_answers with
    | [] => (.error (), s)
    | a :: rest => (a, { s with get_string_answers := rest })
  get_bool s _ :=
    match s.get_bool_answers with
    | [] => (.error (), s)
    | a :: rest => (a, { s with get_bool_answers := rest })
  exists_key s _ :=
    match s.exists_answers with
    | [] => (.error (), s)
    | a :: rest => (a, { s with exists_answers := rest })
  increment s _ :=
    match s.incr_answers with
    | [] => (.error (), s)
    | a :: rest => (a, { s with incr_answers := rest })
  expire s _ _ :=
    match s.expire_answers with
    | [] => (.error (), s)
    | a :: rest => (a, { s with expire_answers := rest })
  set s _ _ :=
    match s.set_answers with
    | [] => (.error (), s)
    | a :: rest => (a, { s with set_answers := rest })

/-- Association-list read used by the concrete store model. -/
def assocGet : List (String × String) → String → Option String
  | [], _ => none
  | (k, v) :: rest, key => if k = key then some v else assocGet rest key

/-- Association-list write (insert or overwrite) used by the concrete
store model. -/
def assocSet : List (String × String) → String → String → List (String × String)
  | [], key, value => [(key, value)]
  | (k, v) :: rest, key, value =>
    if k = key then (key, value) :: rest else (k, v) :: assocSet rest key value

/-- Parse a list of decimal digits into a number. -/
def digitsToNat? : List Char → Option Nat
  | [] => none
  | l => l.foldl (fun acc c => acc.bind fun n =>
      if c.isDigit then some (n * 10 + (c.toNat - 48)) else none) (some 0)

/-- Model of the decimal-integer reading Redis applies to a value before
`INCR`: an optional leading minus sign followed by digits. -/
def parseStoredInt? (s : String) : Option Int :=
  match s.data with
  | '-' :: rest => (digitsToNat? rest).map (fun n => -(n : Int))
  | l => (digitsToNat? l).map (fun n => (n : Int))

/-- Concrete healthy-store model with Redis semantics: a single keyspace
of string values.  `get_string` on a missing key is a store error (as
`GET` of nil is for a `String` conversion), `get_bool` applies the
facade's `bool::from_str(...).unwrap_or(false)`, `increment` creates a
missing key at 1 and errors on a non-integer value, `expire` is a no-op
(wall-clock time is outside the model). -/
structure RedisState where
  strings : List (String × String)
  deriving DecidableEq, Repr

/-- The `Store` instance over `RedisState`. -/
def redisStore : Store RedisState where
  get_string s key :=
    match assocGet s.strings key with
    | some v => (.ok v, s)
    | none => (.error (), s)
  get_bool s key :=
    match assocGet s.strings key with
    | some v => (.ok (v = "true"), s)
    | none => (.error (), s)
  exists_key s key := (.ok (assocGet s.strings key).isSome, s)
  increment s key :=
    match assocGet s.strings key with
    | none => (.ok 1, ⟨assocSet s.strings key "1"⟩)
    | some v =>
      match parseStoredInt? v with
      | none => (.error (), s)
      | some i => (.ok (i + 1), ⟨assocSet s.strings key (toString (i + 1))⟩)
  expire s _ _ := (.ok (), s)
  set s key value := (.ok (), ⟨assocSet s.strings key value⟩)

/-- Concrete configuration used to instantiate universally quantified
results on sample inputs: rate threshold 10, window 600 s, 3 generation
attempts. -/
def wcfg : Shortener := ⟨5, ['a', 'b', 'c'], 3, 600, 10⟩

/-- Like `wcfg` but with a single generation attempt. -/
def wcfg1 : Shortener := ⟨10, ['a', 'b', 'c'], 1, 600, 10⟩

/-- A constant identifier stream for concrete runs. -/
def wids : Nat → String := fun _ => "abc12"

/-- A concrete URL-parse oracle for sample runs: `http://example.com`
parses with host `example.com`; `httpx:foo` parses (valid non-special
scheme) with no host, as the `url` crate does; everything else fails. -/
def wparse : String → Option ParsedUrl := fun u =>
  if u = "http://example.com" then some ⟨some "example.com"⟩
  else if u = "httpx:foo" then some ⟨none⟩
  else none

end Shorty

namespace Shorty

/-! ### Helper lemmas -/

/-- The rate key built by the source, `RATE_` prepended to the full api
key, is literally `RATE_API_KEY_<apiKey>`. -/
theorem rate_key_eq (k : String) :
    "RATE_" ++ ("API_KEY_" ++ k) = "RATE_API_KEY_" ++ k := by
  rw [← String.append_assoc]
  congr 1

theorem gen_loop_calls {σ : Type} (S : Store σ) (ids : Nat → String) :
    ∀ (r i : Nat) (s : σ) (c : StoreCall), c ∈ (generate_id_loop S ids i r s).2.2 →
      ∃ j, c = .exists_key (ids j) := by
  intro r
  induction r with
  | zero => intro i s c hc; simp [generate_id_loop] at hc
  | succ r ih =>
    intro i s c hc
    rcases hS : S.exists_key s (ids i) with ⟨res, s1⟩
    simp only [generate_id_loop, hS] at hc
    rcases hrec : generate_id_loop S ids (i + 1) r s1 with ⟨g, s2, t⟩
    split at hc
    · simp at hc
      exact ⟨i, hc⟩
    · rw [hrec] at hc
      simp at hc
      rcases hc with hc | hc
      · exact ⟨i, hc⟩
      · exact ih (i + 1) s1 c (by rw [hrec]; exact hc)

theorem gen_loop_len {σ : Type} (S : Store σ) (ids : Nat → String) :
    ∀ (r i : Nat) (s : σ), (generate_id_loop S ids i r s).2.2.length ≤ r := by
  intro r
  induction r with
  | zero => intro i s; simp [generate_id_loop]
  | succ r ih =>
    intro i s
    rcases hS : S.exists_key s (ids i) with ⟨res, s1⟩
    simp only [generate_id_loop, hS]
    rcases hrec : generate_id_loop S ids (i + 1) r s1 with ⟨g, s2, t⟩
    split
    · simp
    · have := ih (i + 1) s1
      rw [hrec] at this
      simpa using Nat.succ_le_succ this

theorem gen_loop_ok_ids {σ : Type} (S : Store σ) (ids : Nat → String) :
    ∀ (r i : Nat) (s : σ) (id : String), (generate_id_loop S ids i r s).1 = .ok id →
      ∃ j, id = ids j := by
  intro r
  induction r with
  | zero => intro i s id h; simp [generate_id_loop] at h
  | succ r ih =>
    intro i s id h
    rcases hS : S.exists_key s (ids i) with ⟨res, s1⟩
    simp only [generate_id_loop, hS] at h
    rcases hrec : generate_id_loop S ids (i + 1) r s1 with ⟨g, s2, t⟩
    split at h
    · simp at h
      exact ⟨i, h.symm⟩
    · rw [hrec] at h
      simp at h
      exact ih (i + 1) s1 id (by rw [hrec]; exact h)

theorem vai_calls {σ : Type} (cfg : Shortener) (S : Store σ) (s : σ) (K : String) :
    ∀ c ∈ (cfg.verify_and_increment S s K).2.2,
      c = .get_bool K ∨ c = .exists_key ("RATE_" ++ K) ∨
      c = .increment ("RATE_" ++ K) ∨
      c = .expire ("RATE_" ++ K) cfg.rate_limit_period := by
  intro c hc
  unfold Shortener.verify_and_increment at hc
  rcases hgb : S.get_bool s K with ⟨e | valid, s1⟩ <;> simp only [hgb] at hc
  · simp_all
  · rcases hex : S.exists_key s1 ("RATE_" ++ K) with ⟨e2 | ex, s2⟩ <;>
      rcases hinc : S.increment s2 ("RATE_" ++ K) with ⟨e3 | n, s3⟩ <;>
        rcases hexp : S.expire s3 ("RATE_" ++ K) cfg.rate_limit_period with ⟨e4 | u, s4⟩ <;>
          (repeat' split at hc) <;> simp_all <;> tauto

theorem verify_trace_eq {σ : Type} (cfg : Shortener) (S : Store σ) (s : σ) (k : String) :
    (cfg.verify_api_key S s k).2.2 = (cfg.verify_and_increment S s ("API_KEY_" ++ k)).2.2 := by
  unfold Shortener.verify_api_key
  (repeat' split) <;> simp_all

theorem verify_calls {σ : Type} (cfg : Shortener) (S : Store σ) (s : σ) (k : String) :
    ∀ c ∈ (cfg.verify_api_key S s k).2.2,
      c = .get_bool ("API_KEY_" ++ k) ∨ c = .exists_key ("RATE_API_KEY_" ++ k) ∨
      c = .increment ("RATE_API_KEY_" ++ k) ∨
      c = .expire ("RATE_API_KEY_" ++ k) cfg.rate_limit_period := by
  intro c hc
  rw [verify_trace_eq] at hc
  have h := vai_calls cfg S s ("API_KEY_" ++ k) c hc
  rw [rate_key_eq] at h
  exact h

theorem vai_len {σ : Type} (cfg : Shortener) (S : Store σ) (s : σ) (K : String) :
    (cfg.verify_and_increment S s K).2.2.length ≤ 4 := by
  unfold Shortener.verify_and_increment
  rcases hgb : S.get_bool s K with ⟨e | valid, s1⟩ <;> simp only [hgb]
  · simp
  · rcases hex : S.exists_key s1 ("RATE_" ++ K) with ⟨e2 | ex, s2⟩ <;>
      rcases hinc : S.increment s2 ("RATE_" ++ K) with ⟨e3 | n, s3⟩ <;>
        rcases hexp : S.expire s3 ("RATE_" ++ K) cfg.rate_limit_period with ⟨e4 | u, s4⟩ <;>
          (repeat' split) <;> simp_all

theorem verify_len {σ : Type} (cfg : Shortener) (S : Store σ) (s : σ) (k : String) :
    (cfg.verify_api_key S s k).2.2.length ≤ 4 := by
  rw [verify_trace_eq]
  exact vai_len cfg S s ("API_KEY_" ++ k)

theorem after_verify_no_auth_err {σ : Type} (cfg : Shortener) (S : Store σ)
    (p : String → Option ParsedUrl) (ids : Nat → String)
    (host : Option String) (url : String) (s : σ) :
    (cfg.shorten_after_verify S p ids host url s).1 ≠ ShortenOutcome.err .rateLimitExceeded ∧
    (cfg.shorten_after_verify S p ids host url s).1 ≠ ShortenOutcome.err .invalidApiKey := by
  unfold Shortener.shorten_after_verify
  refine ⟨?_, ?_⟩ <;>
    (repeat' split) <;>
      simp_all <;>
        (repeat' split) <;>
          simp_all

/-- Result of `verify_api_key` against the scripted double when the
flag answer is `true` and the window answers are `exists = b`,
`increment = n`, `expire = ok`, with rate limiting enabled. -/
theorem verify_stub (cfg : Shortener) (k : String) (b : Bool) (n : Int)
    (gsq : List (Except Unit String)) (gbq : List (Except Unit Bool))
    (exq : List (Except Unit Bool)) (setq : List (Except Unit Unit))
    (incq : List (Except Unit Int)) (expq : List (Except Unit Unit))
    (hR : 0 < cfg.rate_limit) :
    cfg.verify_api_key stubStore
        ⟨gsq, .ok true :: gbq, .ok b :: exq, setq, .ok n :: incq, .ok () :: expq⟩ k =
      ((if n > cfg.rate_limit then .err .rateLimitExceeded else .ok),
       ⟨gsq, gbq, exq, setq, incq, if b then .ok () :: expq else expq⟩,
       [.get_bool ("API_KEY_" ++ k), .exists_key ("RATE_API_KEY_" ++ k),
        .increment ("RATE_API_KEY_" ++ k)] ++
         (if b then [] else [.expire ("RATE_API_KEY_" ++ k) cfg.rate_limit_period])) := by
  have hR' : ¬ (cfg.rate_limit ≤ 0) := by omega
  cases b <;> by_cases hn : n > cfg.rate_limit <;>
    simp [Shortener.verify_api_key, Shortener.verify_and_increment, stubStore,
      hR', hn, hR, rate_key_eq]

theorem shorten_of_verify_ok {σ : Type} (cfg : Shortener) (S : Store σ)
    (p : String → Option ParsedUrl) (ids : Nat → String) (s s1 : σ)
    (k : String) (t1 : List StoreCall) (host : Option String) (url : String)
    (hv : cfg.verify_api_key S s k = (.ok, s1, t1)) :
    cfg.shorten S p ids s (some k) host url =
      ((cfg.shorten_after_verify S p ids host url s1).1,
       (cfg.shorten_after_verify S p ids host url s1).2.1,
       t1 ++ (cfg.shorten_after_verify S p ids host url s1).2.2) := by
  simp only [Shortener.shorten]
  rw [hv]

theorem shorten_of_verify_err {σ : Type} (cfg : Shortener) (S : Store σ)
    (p : String → Option ParsedUrl) (ids : Nat → String) (s s1 : σ)
    (k : String) (e : ErrKind) (t1 : List StoreCall) (host : Option String) (url : String)
    (hv : cfg.verify_api_key S s k = (.err e, s1, t1)) :
    cfg.shorten S p ids s (some k) host url = (.err e, s1, t1) := by
  simp only [Shortener.shorten]
  rw [hv]

end Shorty

namespace Shorty

theorem gen_trace_calls {σ : Type} (cfg : Shortener) (S : Store σ) (ids : Nat → String)
    (s : σ) : ∀ c ∈ (cfg.generate_id S ids s).2.2, ∃ j, c = .exists_key (ids j) := by
  intro c hc
  exact gen_loop_calls S ids cfg.id_generation_max_attempts 0 s c hc

theorem after_verify_calls {σ : Type} (cfg : Shortener) (S : Store σ)
    (p : String → Option ParsedUrl) (ids : Nat → String)
    (host : Option String) (url : String) (s : σ) :
    ∀ c ∈ (cfg.shorten_after_verify S p ids host url s).2.2,
      (∃ j, c = .exists_key (ids j)) ∨ ∃ j, c = .set (ids j) (normalize_url url) := by
  intro c hc
  unfold Shortener.shorten_after_verify at hc
  rcases hg : cfg.generate_id S ids s with ⟨g, s2, t2⟩
  rw [hg] at hc
  have hgen : ∀ c ∈ t2, ∃ j, c = StoreCall.exists_key (ids j) := by
    intro c hc2
    exact gen_trace_calls cfg S ids s c (by rw [hg]; exact hc2)
  cases g with
  | exhausted =>
    simp at hc
    exact Or.inl (hgen c hc)
  | ok id =>
    obtain ⟨j, hj⟩ := gen_loop_ok_ids S ids cfg.id_generation_max_attempts 0 s id
      (by
        have h2 : cfg.generate_id S ids s = (GenResult.ok id, s2, t2) := hg
        unfold Shortener.generate_id at h2
        rw [h2])
    have hmem : c ∈ t2 ∨ c = StoreCall.set id (normalize_url url) →
        (∃ j, c = StoreCall.exists_key (ids j)) ∨
          ∃ j, c = StoreCall.set (ids j) (normalize_url url) := fun h =>
      h.elim (fun h2 => Or.inl (hgen c h2))
        (fun h2 => Or.inr ⟨j, by rw [h2, hj]⟩)
    rcases hset1 : S.set s2 id (normalize_url url) with ⟨r1, s3⟩
    rcases hp : p (normalize_url url) with _ | parsed <;> simp only [hp] at hc
    · exact Or.inl (hgen c hc)
    · cases host with
      | none =>
        rw [hset1] at hc
        cases r1 <;> simp at hc <;> exact hmem hc
      | some h =>
        rcases hhs : parsed.host_str with _ | uh <;> simp only [hhs] at hc
        · exact Or.inl (hgen c hc)
        · by_cases huh : uh = h <;> simp only [huh, if_pos, if_neg, if_true, if_false] at hc
          · exact Or.inl (hgen c hc)
          · rw [hset1] at hc
            cases r1 <;> simp at hc <;> exact hmem hc

end Shorty

namespace Shorty

theorem after_verify_len {σ : Type} (cfg : Shortener) (S : Store σ)
    (p : String → Option ParsedUrl) (ids : Nat → String)
    (host : Option String) (url : String) (s : σ) :
    (cfg.shorten_after_verify S p ids host url s).2.2.length ≤
      cfg.id_generation_max_attempts + 1 := by
  unfold Shortener.shorten_after_verify
  rcases hg : cfg.generate_id S ids s with ⟨g, s2, t2⟩
  have hlen : t2.length ≤ cfg.id_generation_max_attempts := by
    have h2 := gen_loop_len S ids cfg.id_generation_max_attempts 0 s
    unfold Shortener.generate_id at hg
    rw [hg] at h2
    exact h2
  cases g with
  | exhausted => simpa using Nat.le_succ_of_le hlen
  | ok id =>
    rcases hset1 : S.set s2 id (normalize_url url) with ⟨r1, s3⟩
    rcases hp : p (normalize_url url) with _ | parsed <;> simp only [hp]
    · simpa using Nat.le_succ_of_le hlen
    · cases host with
      | none => rw [hset1]; cases r1 <;> simp <;> omega
      | some h =>
        rcases hhs : parsed.host_str with _ | uh <;> simp only [hhs]
        · simpa using Nat.le_succ_of_le hlen
        · by_cases huh : uh = h <;> simp only [huh, if_true, if_false]
          · simpa using Nat.le_succ_of_le hlen
          · rw [hset1]; cases r1 <;> simp <;> omega

theorem after_verify_err_no_set {σ : Type} (cfg : Shortener) (S : Store σ)
    (p : String → Option ParsedUrl) (ids : Nat → String)
    (host : Option String) (url : String) (s : σ) (e : ErrKind)
    (he : (cfg.shorten_after_verify S p ids host url s).1 = .err e)
    (hne : e ≠ ErrKind.storageError) :
    ∀ key v, StoreCall.set key v ∉ (cfg.shorten_after_verify S p ids host url s).2.2 := by
  intro key v hmem
  have hgen2 : ∀ c ∈ (cfg.generate_id S ids s).2.2, ∃ j, c = StoreCall.exists_key (ids j) :=
    gen_trace_calls cfg S ids s
  unfold Shortener.shorten_after_verify at he hmem
  rcases hg : cfg.generate_id S ids s with ⟨g, s2, t2⟩
  rw [hg] at he hmem
  have hgt : StoreCall.set key v ∉ t2 := by
    intro hin
    obtain ⟨j, hj⟩ := hgen2 _ (by rw [hg]; exact hin)
    simp at hj
  cases g with
  | exhausted =>
    simp at hmem
    exact hgt hmem
  | ok id =>
    rcases hset1 : S.set s2 id (normalize_url url) with ⟨r1, s3⟩
    rcases hp : p (normalize_url url) with _ | parsed <;> simp only [hp] at he hmem
    · exact hgt hmem
    · cases host with
      | none =>
        rw [hset1] at he hmem
        cases r1 <;> simp_all
      | some h =>
        rcases hhs : parsed.host_str with _ | uh <;> simp only [hhs] at he hmem
        · exact hgt hmem
        · by_cases huh : uh = h <;> simp only [huh, if_true, if_false] at he hmem
          · exact hgt hmem
          · rw [hset1] at he hmem
            cases r1 <;> simp_all

theorem assocGet_assocSet_self (l : List (String × String)) (k v : String) :
    assocGet (assocSet l k v) k = some v := by
  induction l with
  | nil => simp [assocGet, assocSet]
  | cons hd tl ih =>
    rcases hd with ⟨k0, v0⟩
    by_cases hk : k0 = k <;> simp [assocGet, assocSet, hk, ih]

theorem after_verify_ok_lookup_redis (cfg : Shortener)
    (p : String → Option ParsedUrl) (ids : Nat → String)
    (host : Option String) (url : String) (s : RedisState)
    (id nurl : String) (s' : RedisState) (t : List StoreCall)
    (h : cfg.shorten_after_verify redisStore p ids host url s = (.ok id nurl, s', t)) :
    (lookup redisStore s' id).1 = some nurl := by
  unfold Shortener.shorten_after_verify at h
  rcases hg : cfg.generate_id redisStore ids s with ⟨g, s2, t2⟩
  rw [hg] at h
  cases g with
  | exhausted => simp at h
  | ok id0 =>
    rcases hp : p (normalize_url url) with _ | parsed <;> simp only [hp] at h
    · simp at h
    · have hset : redisStore.set s2 id0 (normalize_url url) =
          (.ok (), ⟨assocSet s2.strings id0 (normalize_url url)⟩) := rfl
      cases host with
      | none =>
        rw [hset] at h
        simp at h
        obtain ⟨⟨hid, hnurl⟩, hs', ht⟩ := h
        subst hid hnurl hs'
        simp [lookup, redisStore, assocGet_assocSet_self]
      | some hst =>
        rcases hhs : parsed.host_str with _ | uh <;> simp only [hhs] at h
        · simp at h
        · by_cases huh : uh = hst <;> simp only [huh, if_true, if_false] at h
          · simp at h
          · rw [hset] at h
            simp at h
            obtain ⟨⟨hid, hnurl⟩, hs', ht⟩ := h
            subst hid hnurl hs'
            simp [lookup, redisStore, assocGet_assocSet_self]

end Shorty

namespace Shorty

theorem verify_invalid {σ : Type} (cfg : Shortener) (S : Store σ) (s s1 : σ)
    (k : String) (r : Except Unit Bool)
    (hgb : S.get_bool s ("API_KEY_" ++ k) = (r, s1))
    (hr : r = .error () ∨ r = .ok false) :
    cfg.verify_api_key S s k =
      (.err .invalidApiKey, s1, [.get_bool ("API_KEY_" ++ k)]) := by
  unfold Shortener.verify_api_key Shortener.verify_and_increment
  rw [hgb]
  rcases hr with h | h <;> subst h <;> simp

theorem verify_disabled {σ : Type} (cfg : Shortener) (S : Store σ) (s s1 : σ)
    (k : String) (hR : cfg.rate_limit ≤ 0)
    (hgb : S.get_bool s ("API_KEY_" ++ k) = (.ok true, s1)) :
    cfg.verify_api_key S s k = (.ok, s1, [.get_bool ("API_KEY_" ++ k)]) := by
  unfold Shortener.verify_api_key Shortener.verify_and_increment
  rw [hgb]
  have hR' : ¬ (0 < cfg.rate_limit) := by omega
  simp [hR, hR']

theorem gen_loop_replicate_true (ids : Nat → String) :
    ∀ (r i : Nat) (gsq : List (Except Unit String)) (gbq : List (Except Unit Bool))
      (rest : List (Except Unit Bool)) (setq : List (Except Unit Unit))
      (incq : List (Except Unit Int)) (expq : List (Except Unit Unit)),
      (generate_id_loop stubStore ids i r
        ⟨gsq, gbq, List.replicate r (Except.ok true) ++ rest, setq, incq, expq⟩).1 =
        .exhausted := by
  intro r
  induction r with
  | zero => intro i gsq gbq rest setq incq expq; simp [generate_id_loop]
  | succ r ih =>
    intro i gsq gbq rest setq incq expq
    simp only [List.replicate_succ, List.cons_append, generate_id_loop, stubStore]
    exact ih (i + 1) gsq gbq rest setq incq expq

theorem starts_http (s : String) :
    starts_with (toLowercase ("http://" ++ s)) "http" = true := by
  unfold starts_with toLowercase
  have h1 : ("http://" ++ s).data = 'h' :: 't' :: 't' :: 'p' :: ':' :: '/' :: '/' :: s.data := by
    rw [String.data_append]
    rfl
  rw [h1]
  rfl

end Shorty

namespace Shorty

/-- C1: a successful `shorten` that stored `(id, nurl)` leaves the store
in a state where `lookup id` returns exactly `some nurl`. -/
theorem claim1_lookup_after_shorten (cfg : Shortener)
    (p : String → Option ParsedUrl) (ids : Nat → String) (s : RedisState)
    (api_key host : Option String) (url : String)
    (id nurl : String) (s' : RedisState) (t : List StoreCall)
    (h : cfg.shorten redisStore p ids s api_key host url = (.ok id nurl, s', t)) :
    (lookup redisStore s' id).1 = some nurl := by
  cases api_key with
  | none =>
    simp only [Shortener.shorten] at h
    exact after_verify_ok_lookup_redis cfg p ids host url s id nurl s' t h
  | some k =>
    simp only [Shortener.shorten] at h
    rcases hv : cfg.verify_api_key redisStore s k with ⟨v, s1, t1⟩
    rw [hv] at h
    cases v with
    | panicked => simp at h
    | err e => simp at h
    | ok =>
      simp at h
      obtain ⟨h1, h2, h3⟩ := h
      refine after_verify_ok_lookup_redis cfg p ids host url s1 id nurl s'
        (cfg.shorten_after_verify redisStore p ids host url s1).2.2 ?_
      rcases hA : cfg.shorten_after_verify redisStore p ids host url s1 with ⟨o, s2, t2⟩
      rw [hA] at h1 h2
      simp at h1 h2
      simp [h1, h2]

theorem claim1_witness :
    (lookup redisStore
      (Shortener.shorten wcfg redisStore wparse wids ⟨[]⟩ none none "example.com").2.1
      "abc12").1 = some "http://example.com" :=
  claim1_lookup_after_shorten wcfg wparse wids ⟨[]⟩ none none "example.com"
    "abc12" "http://example.com"
    (Shortener.shorten wcfg redisStore wparse wids ⟨[]⟩ none none "example.com").2.1
    (Shortener.shorten wcfg redisStore wparse wids ⟨[]⟩ none none "example.com").2.2
    rfl

end Shorty

namespace Shorty

/-- C2: with a valid API key answer and positive threshold, `shorten`
fails with `RateLimitExceeded` exactly when the post-increment counter
returned by the store exceeds the threshold. -/
theorem claim2_rate_limit_iff (cfg : Shortener) (k : String) (b : Bool) (n : Int)
    (gsq : List (Except Unit String)) (gbq : List (Except Unit Bool))
    (exq : List (Except Unit Bool)) (setq : List (Except Unit Unit))
    (incq : List (Except Unit Int)) (expq : List (Except Unit Unit))
    (p : String → Option ParsedUrl) (ids : Nat → String)
    (host : Option String) (url : String)
    (hR : 0 < cfg.rate_limit) :
    ((cfg.shorten stubStore p ids
        ⟨gsq, .ok true :: gbq, .ok b :: exq, setq, .ok n :: incq, .ok () :: expq⟩
        (some k) host url).1 = .err .rateLimitExceeded
      ↔ cfg.rate_limit < n) := by
  have hstub := verify_stub cfg k b n gsq gbq exq setq incq expq hR
  by_cases hn : n > cfg.rate_limit
  · rw [if_pos hn] at hstub
    rw [shorten_of_verify_err cfg stubStore p ids _ _ k _ _ host url hstub]
    simpa using hn
  · rw [if_neg hn] at hstub
    rw [shorten_of_verify_ok cfg stubStore p ids _ _ k _ host url hstub]
    constructor
    · intro h
      exact absurd h (after_verify_no_auth_err cfg stubStore p ids host url _).1
    · intro h
      omega

theorem claim2_witness :
    (Shortener.shorten wcfg stubStore wparse wids
        ⟨[], [.ok true], [.ok true], [], [.ok 11], [.ok ()]⟩
        (some "api key") (some "with.lv") "example.com").1 = .err .rateLimitExceeded :=
  (claim2_rate_limit_iff wcfg "api key" true 11 [] [] [] [] [] [] wparse wids
      (some "with.lv") "example.com" (by decide)).mpr (by decide)

/-- C4: contrary to the no-panic policy, a store error returned by the
`expire` call during rate-limit verification makes `shorten` panic (the
`.unwrap()` at the expire call site). -/
theorem claim4_expire_error_panics :
    (Shortener.shorten wcfg stubStore wparse wids
        ⟨[], [.ok true], [.ok false], [], [.ok 1], [.error ()]⟩
        (some "api key") none "example.com").1 = .panicked := by decide

/-- C7: `lookup` issues exactly one store read and no writes; a
successful read is returned as `some`, any store failure becomes `none`. -/
theorem claim7_lookup_swallows_errors {σ : Type} (S : Store σ) (s : σ) (id : String) :
    (lookup S s id).2.2 = [.get_string id] ∧
    (∀ u s1, S.get_string s id = (.ok u, s1) → (lookup S s id).1 = some u) ∧
    (∀ e s1, S.get_string s id = (.error e, s1) → (lookup S s id).1 = none) := by
  refine ⟨?_, ?_, ?_⟩
  · rcases hg : S.get_string s id with ⟨r, s1⟩
    cases r <;> simp [lookup, hg]
  · intro u s1 h
    simp [lookup, h]
  · intro e s1 h
    simp [lookup, h]

theorem claim7_witness :
    (lookup stubStore ⟨[.ok "test url"], [], [], [], [], []⟩ "id").2.2 =
        [StoreCall.get_string "id"] ∧
      (lookup stubStore ⟨[.ok "test url"], [], [], [], [], []⟩ "id").1 = some "test url" :=
  ⟨(claim7_lookup_swallows_errors stubStore ⟨[.ok "test url"], [], [], [], [], []⟩ "id").1,
   (claim7_lookup_swallows_errors stubStore ⟨[.ok "test url"], [], [], [], [], []⟩ "id").2.1
     "test url" ⟨[], [], [], [], [], []⟩ rfl⟩

/-- C9 counterexample: a rate-limited first call with a single
generation attempt already makes 6 store round-trips, exceeding the
claimed bound of 5. -/
theorem claim9_counterexample :
    (Shortener.shorten wcfg1 stubStore wparse wids
        ⟨[], [.ok true], [.ok false, .ok false], [.ok ()], [.ok 1], [.ok ()]⟩
        (some "api key") (some "with.lv") "example.com").2.2.length = 6 ∧
    ¬ ((Shortener.shorten wcfg1 stubStore wparse wids
        ⟨[], [.ok true], [.ok false, .ok false], [.ok ()], [.ok 1], [.ok ()]⟩
        (some "api key") (some "with.lv") "example.com").2.2.length ≤ 5) := by decide

/-- C10: when the parsed URL has no host component and a request host is
supplied, the loop-prevention step panics on its `unwrap`; `httpx:foo`
is such an input (it starts with `http`, so it is not prefixed, and it
parses as a non-special scheme with no host). -/
theorem claim10_no_host_panics (p : String → Option ParsedUrl) (h : String)
    (hp : p "httpx:foo" = some ⟨none⟩) :
    (Shortener.shorten wcfg stubStore p wids ⟨[], [], [.ok false], [], [], []⟩
        none (some h) "httpx:foo").1 = .panicked := by
  have hn : normalize_url "httpx:foo" = "httpx:foo" := by decide
  have hgen : wcfg.generate_id stubStore wids ⟨[], [], [.ok false], [], [], []⟩ =
      (.ok "abc12", ⟨[], [], [], [], [], []⟩, [.exists_key "abc12"]) := by decide
  simp only [Shortener.shorten, Shortener.shorten_after_verify, hgen, hn, hp]

theorem claim10_witness :
    (Shortener.shorten wcfg stubStore wparse wids ⟨[], [], [.ok false], [], [], []⟩
        none (some "sho.rt") "httpx:foo").1 = .panicked :=
  claim10_no_host_panics wparse "sho.rt" (by decide)

end Shorty

namespace Shorty

/-- C6: normalization prepends `http://` exactly when the lowercased URL
does not start with `http`, and it is idempotent. -/
theorem claim6_normalization (url : String) :
    (normalize_url url = "http://" ++ url ↔
      starts_with (toLowercase url) "http" = false) ∧
    (starts_with (toLowercase url) "http" = true → normalize_url url = url) ∧
    normalize_url (normalize_url url) = normalize_url url := by
  have hlen : url ≠ "http://" ++ url := by
    intro h
    have h2 := congrArg String.length h
    rw [String.length_append] at h2
    have h3 : "http://".length = 7 := by decide
    omega
  refine ⟨⟨?_, ?_⟩, ?_, ?_⟩
  · intro h
    by_cases hs : starts_with (toLowercase url) "http"
    · rw [normalize_url, hs] at h
      simp at h
      exact absurd h hlen
    · simpa using hs
  · intro h
    simp [normalize_url, h]
  · intro h
    simp [normalize_url, h]
  · by_cases hs : starts_with (toLowercase url) "http"
    · simp [normalize_url, hs]
    · simp only [normalize_url, hs, Bool.not_false, if_true]
      simp [starts_http]

end Shorty

namespace Shorty

theorem shorten_calls {σ : Type} (cfg : Shortener) (S : Store σ) (s : σ) (k : String)
    (p : String → Option ParsedUrl) (ids : Nat → String)
    (host : Option String) (url : String) :
    ∀ c ∈ (cfg.shorten S p ids s (some k) host url).2.2,
      c = .get_bool ("API_KEY_" ++ k) ∨ c = .exists_key ("RATE_API_KEY_" ++ k) ∨
      c = .increment ("RATE_API_KEY_" ++ k) ∨
      c = .expire ("RATE_API_KEY_" ++ k) cfg.rate_limit_period ∨
      (∃ j, c = .exists_key (ids j)) ∨ ∃ j, c = .set (ids j) (normalize_url url) := by
  intro c hc
  simp only [Shortener.shorten] at hc
  rcases hv : cfg.verify_api_key S s k with ⟨v, s1, t1⟩
  rw [hv] at hc
  have ht1 : ∀ c2 ∈ t1,
      c2 = StoreCall.get_bool ("API_KEY_" ++ k) ∨
      c2 = StoreCall.exists_key ("RATE_API_KEY_" ++ k) ∨
      c2 = StoreCall.increment ("RATE_API_KEY_" ++ k) ∨
      c2 = StoreCall.expire ("RATE_API_KEY_" ++ k) cfg.rate_limit_period :=
    fun c2 h2 => verify_calls cfg S s k c2 (by rw [hv]; exact h2)
  cases v with
  | panicked =>
    simp at hc
    rcases ht1 c hc with h | h | h | h <;> tauto
  | err e =>
    simp at hc
    rcases ht1 c hc with h | h | h | h <;> tauto
  | ok =>
    simp at hc
    rcases hc with hc | hc
    · rcases ht1 c hc with h | h | h | h <;> tauto
    · rcases after_verify_calls cfg S p ids host url s1 c hc with h | h <;> tauto

/-- C3: within a `shorten` call carrying a valid API key and a positive
threshold, the verification step issues exactly `get_bool`, then the
rate-counter existence check, then the increment, and an `expire` exactly
when the counter did not yet exist; with the threshold disabled it issues
only the `get_bool`, and the remaining calls of the invocation touch only
generated identifier candidates. -/
theorem claim3_expire_at_creation (cfg : Shortener) (k : String) (b : Bool) (n : Int)
    (gsq : List (Except Unit String)) (gbq : List (Except Unit Bool))
    (exq : List (Except Unit Bool)) (setq : List (Except Unit Unit))
    (incq : List (Except Unit Int)) (expq : List (Except Unit Unit))
    (p : String → Option ParsedUrl) (ids : Nat → String)
    (host : Option String) (url : String) :
    (0 < cfg.rate_limit →
      ∃ rest,
        (cfg.shorten stubStore p ids
            ⟨gsq, .ok true :: gbq, .ok b :: exq, setq, .ok n :: incq, .ok () :: expq⟩
            (some k) host url).2.2 =
          [.get_bool ("API_KEY_" ++ k), .exists_key ("RATE_API_KEY_" ++ k),
           .increment ("RATE_API_KEY_" ++ k)] ++
            (if b then [] else [.expire ("RATE_API_KEY_" ++ k) cfg.rate_limit_period]) ++
            rest ∧
          ∀ c ∈ rest, (∃ j, c = StoreCall.exists_key (ids j)) ∨
            ∃ j, c = StoreCall.set (ids j) (normalize_url url)) ∧
    (cfg.rate_limit ≤ 0 →
      ∃ rest,
        (cfg.shorten stubStore p ids
            ⟨gsq, .ok true :: gbq, .ok b :: exq, setq, .ok n :: incq, .ok () :: expq⟩
            (some k) host url).2.2 =
          [.get_bool ("API_KEY_" ++ k)] ++ rest ∧
          ∀ c ∈ rest, (∃ j, c = StoreCall.exists_key (ids j)) ∨
            ∃ j, c = StoreCall.set (ids j) (normalize_url url)) := by
  constructor
  · intro hR
    have hstub := verify_stub cfg k b n gsq gbq exq setq incq expq hR
    by_cases hn : n > cfg.rate_limit
    · rw [if_pos hn] at hstub
      rw [shorten_of_verify_err cfg stubStore p ids _ _ k _ _ host url hstub]
      exact ⟨[], by simp, by simp⟩
    · rw [if_neg hn] at hstub
      rw [shorten_of_verify_ok cfg stubStore p ids _ _ k _ host url hstub]
      refine ⟨(cfg.shorten_after_verify stubStore p ids host url
        ⟨gsq, gbq, exq, setq, incq, if b then .ok () :: expq else expq⟩).2.2,
        by simp, ?_⟩
      exact after_verify_calls cfg stubStore p ids host url _
  · intro hR0
    have hv := verify_disabled cfg stubStore
      ⟨gsq, .ok true :: gbq, .ok b :: exq, setq, .ok n :: incq, .ok () :: expq⟩
      ⟨gsq, gbq, .ok b :: exq, setq, .ok n :: incq, .ok () :: expq⟩ k hR0 rfl
    rw [shorten_of_verify_ok cfg stubStore p ids _ _ k _ host url hv]
    refine ⟨(cfg.shorten_after_verify stubStore p ids host url
      ⟨gsq, gbq, .ok b :: exq, setq, .ok n :: incq, .ok () :: expq⟩).2.2,
      by simp, ?_⟩
    exact after_verify_calls cfg stubStore p ids host url _

theorem claim3_witness :
    ∃ rest,
      (Shortener.shorten wcfg stubStore wparse wids
          ⟨[], [.ok true], [.ok false, .ok false], [.ok ()], [.ok 1], [.ok ()]⟩
          (some "api key") (some "with.lv") "example.com").2.2 =
        [.get_bool ("API_KEY_" ++ "api key"), .exists_key ("RATE_API_KEY_" ++ "api key"),
         .increment ("RATE_API_KEY_" ++ "api key")] ++
          (if false then []
           else [.expire ("RATE_API_KEY_" ++ "api key") wcfg.rate_limit_period]) ++ rest ∧
        ∀ c ∈ rest, (∃ j, c = StoreCall.exists_key (wids j)) ∨
          ∃ j, c = StoreCall.set (wids j) (normalize_url "example.com") :=
  (claim3_expire_at_creation wcfg "api key" false 1 [] [] [.ok false] [.ok ()] [] []
      wparse wids (some "with.lv") "example.com").1 (by decide)

end Shorty

namespace Shorty

/-- C5: a `shorten` call failing with any error other than the storage
error issues no `set`; an invalid or unreadable API-key flag fails with
`InvalidApiKey` after the single `get_bool` call and before any other
store call; and when every generation attempt collides the call fails
with `IdGenerationExhausted`. -/
theorem claim5_no_write_on_error :
    (∀ (σ : Type) (S : Store σ) (cfg : Shortener) (s : σ)
      (p : String → Option ParsedUrl) (ids : Nat → String)
      (api_key host : Option String) (url : String) (e : ErrKind),
      (cfg.shorten S p ids s api_key host url).1 = .err e →
      e ≠ ErrKind.storageError →
      ∀ key v, StoreCall.set key v ∉ (cfg.shorten S p ids s api_key host url).2.2) ∧
    (∀ (σ : Type) (S : Store σ) (cfg : Shortener) (s s1 : σ) (r : Except Unit Bool)
      (p : String → Option ParsedUrl) (ids : Nat → String)
      (host : Option String) (url : String) (k : String),
      S.get_bool s ("API_KEY_" ++ k) = (r, s1) →
      (r = .error () ∨ r = .ok false) →
      cfg.shorten S p ids s (some k) host url =
        (.err .invalidApiKey, s1, [.get_bool ("API_KEY_" ++ k)])) ∧
    (∀ (cfg : Shortener) (p : String → Option ParsedUrl) (ids : Nat → String)
      (host : Option String) (url : String)
      (gsq : List (Except Unit String)) (gbq : List (Except Unit Bool))
      (rest : List (Except Unit Bool)) (setq : List (Except Unit Unit))
      (incq : List (Except Unit Int)) (expq : List (Except Unit Unit)),
      (cfg.shorten stubStore p ids
          ⟨gsq, gbq, List.replicate cfg.id_generation_max_attempts (Except.ok true) ++ rest,
           setq, incq, expq⟩ none host url).1 = .err .idGenerationExhausted) := by
  refine ⟨?_, ?_, ?_⟩
  · intro σ S cfg s p ids api_key host url e he hne key v hmem
    cases api_key with
    | none =>
      simp only [Shortener.shorten] at he hmem
      exact after_verify_err_no_set cfg S p ids host url s e he hne key v hmem
    | some k =>
      simp only [Shortener.shorten] at he hmem
      rcases hv : cfg.verify_api_key S s k with ⟨vo, s1, t1⟩
      rw [hv] at he hmem
      have ht1 : StoreCall.set key v ∉ t1 := by
        intro hin
        rcases verify_calls cfg S s k _ (by rw [hv]; exact hin) with h | h | h | h <;>
          simp at h
      cases vo with
      | panicked => simp at he
      | err e0 =>
        simp at he hmem
        exact ht1 hmem
      | ok =>
        simp at he hmem
        rcases hmem with hmem | hmem
        · exact ht1 hmem
        · exact after_verify_err_no_set cfg S p ids host url s1 e he hne key v hmem
  · intro σ S cfg s s1 r p ids host url k hgb hr
    exact shorten_of_verify_err cfg S p ids s s1 k .invalidApiKey
      [.get_bool ("API_KEY_" ++ k)] host url (verify_invalid cfg S s s1 k r hgb hr)
  · intro cfg p ids host url gsq gbq rest setq incq expq
    simp only [Shortener.shorten]
    unfold Shortener.shorten_after_verify
    rcases hg : cfg.generate_id stubStore ids
      ⟨gsq, gbq, List.replicate cfg.id_generation_max_attempts (Except.ok true) ++ rest,
       setq, incq, expq⟩ with ⟨g, s2, t2⟩
    have hex : g = .exhausted := by
      have h2 := gen_loop_replicate_true ids cfg.id_generation_max_attempts 0
        gsq gbq rest setq incq expq
      unfold Shortener.generate_id at hg
      rw [hg] at h2
      simpa using h2
    subst hex
    simp

theorem claim5_witness :
    (StoreCall.set "x" "y" ∉
      (Shortener.shorten wcfg stubStore wparse wids
          ⟨[], [.ok true], [.ok true], [], [.ok 11], [.ok ()]⟩
          (some "api key") (some "with.lv") "example.com").2.2) ∧
    (Shortener.shorten wcfg stubStore wparse wids
        ⟨[], [.ok false], [], [], [], []⟩ (some "api key") (some "with.lv")
        "example.com") =
      (.err .invalidApiKey, ⟨[], [], [], [], [], []⟩,
       [.get_bool ("API_KEY_" ++ "api key")]) ∧
    (Shortener.shorten wcfg stubStore wparse wids
        ⟨[], [], List.replicate wcfg.id_generation_max_attempts (Except.ok true) ++ [],
         [], [], []⟩ none (some "with.lv") "example.com").1 =
      .err .idGenerationExhausted :=
  ⟨claim5_no_write_on_error.1 StubState stubStore wcfg
      ⟨[], [.ok true], [.ok true], [], [.ok 11], [.ok ()]⟩ wparse wids
      (some "api key") (some "with.lv") "example.com" .rateLimitExceeded
      (by decide) (by decide) "x" "y",
   claim5_no_write_on_error.2.1 StubState stubStore wcfg
      ⟨[], [.ok false], [], [], [], []⟩ ⟨[], [], [], [], [], []⟩ (.ok false)
      wparse wids (some "with.lv") "example.com" "api key" rfl (Or.inr rfl),
   claim5_no_write_on_error.2.2 wcfg wparse wids (some "with.lv") "example.com"
      [] [] [] [] [] []⟩

/-- C8: the API-key flag is read at `API_KEY_<k>`, the rate counter is
addressed at `RATE_API_KEY_<k>` with the configured window, and the only
`set` issued writes the normalized URL under a bare generated
identifier. -/
theorem claim8_key_shapes {σ : Type} (cfg : Shortener) (S : Store σ) (s : σ)
    (k : String) (p : String → Option ParsedUrl) (ids : Nat → String)
    (host : Option String) (url : String) :
    (∀ key, StoreCall.get_bool key ∈ (cfg.shorten S p ids s (some k) host url).2.2 →
      key = "API_KEY_" ++ k) ∧
    (∀ key, StoreCall.increment key ∈ (cfg.shorten S p ids s (some k) host url).2.2 →
      key = "RATE_API_KEY_" ++ k) ∧
    (∀ key secs, StoreCall.expire key secs ∈ (cfg.shorten S p ids s (some k) host url).2.2 →
      key = "RATE_API_KEY_" ++ k ∧ secs = cfg.rate_limit_period) ∧
    (∀ key, StoreCall.exists_key key ∈ (cfg.shorten S p ids s (some k) host url).2.2 →
      key = "RATE_API_KEY_" ++ k ∨ ∃ j, key = ids j) ∧
    (∀ key v, StoreCall.set key v ∈ (cfg.shorten S p ids s (some k) host url).2.2 →
      (∃ j, key = ids j) ∧ v = normalize_url url) := by
  refine ⟨?_, ?_, ?_, ?_, ?_⟩
  · intro key h
    rcases shorten_calls cfg S s k p ids host url _ h with h1 | h1 | h1 | h1 | ⟨j, h1⟩ | ⟨j, h1⟩ <;>
      simp_all
  · intro key h
    rcases shorten_calls cfg S s k p ids host url _ h with h1 | h1 | h1 | h1 | ⟨j, h1⟩ | ⟨j, h1⟩ <;>
      simp_all
  · intro key secs h
    rcases shorten_calls cfg S s k p ids host url _ h with h1 | h1 | h1 | h1 | ⟨j, h1⟩ | ⟨j, h1⟩ <;>
      simp_all
  · intro key h
    rcases shorten_calls cfg S s k p ids host url _ h with h1 | h1 | h1 | h1 | ⟨j, h1⟩ | ⟨j, h1⟩ <;>
      simp_all
  · intro key v h
    rcases shorten_calls cfg S s k p ids host url _ h with h1 | h1 | h1 | h1 | ⟨j, h1⟩ | ⟨j, h1⟩ <;>
      simp_all

theorem claim8_witness :
    "API_KEY_api key" = "API_KEY_" ++ "api key" :=
  (claim8_key_shapes wcfg stubStore
      ⟨[], [.ok true], [.ok true], [], [.ok 2], [.ok ()]⟩ "api key" wparse wids
      (some "with.lv") "example.com").1 "API_KEY_api key" (by decide)

/-- C9 (amended): `lookup` performs exactly one store round-trip and
`shorten` performs at most `maxAttempts + 5` round-trips (up to 4 for
rate-limited verification, up to `maxAttempts` existence checks, one
`set`). -/
theorem claim9_round_trip_bounds {σ : Type} (cfg : Shortener) (S : Store σ) (s : σ)
    (id : String) (p : String → Option ParsedUrl) (ids : Nat → String)
    (api_key host : Option String) (url : String) :
    (lookup S s id).2.2.length = 1 ∧
    (cfg.shorten S p ids s api_key host url).2.2.length ≤
      cfg.id_generation_max_attempts + 5 := by
  constructor
  · rcases hg : S.get_string s id with ⟨r, s1⟩
    cases r <;> simp [lookup, hg]
  · cases api_key with
    | none =>
      simp only [Shortener.shorten]
      have h1 := after_verify_len cfg S p ids host url s
      omega
    | some k =>
      simp only [Shortener.shorten]
      rcases hv : cfg.verify_api_key S s k with ⟨v, s1, t1⟩
      have hv4 : t1.length ≤ 4 := by
        have h2 := verify_len cfg S s k
        rw [hv] at h2
        simpa using h2
      have hA := after_verify_len cfg S p ids host url s1
      cases v with
      | panicked => simp; omega
      | err e => simp; omega
      | ok =>
        simp only [List.length_append]
        exact le_trans (Nat.add_le_add hv4 hA) (by omega)

end Shorty

namespace Shorty

theorem claim6_witness :
    normalize_url "example.com" = "http://" ++ "example.com" :=
  (claim6_normalization "example.com").1.mpr (by decide)

end Shorty
